import Mathlib

/-!
Verification of the memflow-native process/memory introspection layer
(`src/linux/process.rs` and `src/windows/mod.rs`) against its design
specification.  The Rust code is shallowly embedded: machine integers
(`u64`/`umem`) are modelled as `Nat` with explicit `% 2^64` wherever the
source's arithmetic can wrap, fallible operations return `Except`, the
opaque caller-supplied callbacks become explicit stateful functions
`α → σ → Bool × σ`, and the lazy iterator pipeline becomes a function on
lists computed stage by stage in source order.
-/

namespace MemflowNative

/-- Modulus of the 64-bit machine words (`u64` / `umem`) used by the source. -/
def U64MOD : Nat := 2 ^ 64

/-- Two's-complement wrapping subtraction on 64-bit words, as performed by
`imem` subtraction followed by an `as umem` cast (and by `u64` subtraction
in release builds). -/
def wrapSub (a b : Nat) : Nat :=
  (((a : Int) - (b : Int)) % (U64MOD : Int)).toNat

/-- Model of `Address::invalid()` of memflow: the all-ones 64-bit word. -/
def INVALID : Nat := U64MOD - 1

/-- Embedding of `ErrorOrigin` of memflow (only the origin the two files use). -/
inductive ErrorOrigin where
  | OsLayer
  deriving DecidableEq, Repr

/-- Embedding of `ErrorKind` of memflow (only the kinds the two files construct). -/
inductive ErrorKind where
  | UnableToReadDir
  | NotFound
  | NotImplemented
  | Unknown
  deriving DecidableEq, Repr

/-- Embedding of `Error(origin, kind)` of memflow. -/
structure Error where
  origin : ErrorOrigin
  kind : ErrorKind
  deriving DecidableEq, Repr

/-- Embedding of `ArchitectureIdent` of memflow. -/
inductive ArchitectureIdent where
  | X86 (bits : Nat) (ext : Bool)
  | AArch64 (pageSize : Nat)
  | Unknown (n : Nat)
  deriving DecidableEq, Repr

/-- Embedding of `ProcessState` of memflow. -/
inductive ProcessState where
  | Alive
  | Dead
  | Unknown
  deriving DecidableEq, Repr

/-- Embedding of `procfs::process::MMapPath`. -/
inductive MMapPath where
  | Path (buf : String)
  | Heap
  | Stack
  | TStack (tid : Nat)
  | Vdso
  | Vvar
  | Vsyscall
  | Rollup
  | Anonymous
  | Vsys (key : Nat)
  | Other (s : String)
  deriving DecidableEq, Repr

/-- Embedding of `procfs::process::MMPermissions`, restricted to the three bits the
source reads (`READ`, `WRITE`, `EXECUTE`); `MMPermissions::NONE` is the
record with all three cleared. -/
structure MMPermissions where
  read : Bool
  write : Bool
  exec : Bool
  deriving DecidableEq, Repr

/-- The constant `MMPermissions::NONE`. -/
def MMPermissions.none : MMPermissions := ⟨false, false, false⟩

/-- Embedding of `procfs::process::MemoryMap`.  The `extension` field
(`MMapExtension::default()` everywhere in the source) carries no data the
source ever reads and is omitted. -/
structure MemoryMap where
  addrStart : Nat
  addrEnd : Nat
  perms : MMPermissions
  offset : Nat
  dev : Nat × Nat
  inode : Nat
  pathname : MMapPath
  deriving DecidableEq, Repr

/-- Byte size of a mapping, `map.address.1 - map.address.0`. -/
def MemoryMap.size (m : MemoryMap) : Nat := m.addrEnd - m.addrStart

/-- Embedding of `memflow::os::ProcessInfo`, with addresses as plain 64-bit numbers. -/
structure ProcessInfo where
  address : Nat
  pid : Nat
  state : ProcessState
  name : String
  path : String
  command_line : String
  sys_arch : ArchitectureIdent
  proc_arch : ArchitectureIdent
  dtb1 : Nat
  dtb2 : Nat
  deriving DecidableEq, Repr

/-- Embedding of `memflow::os::ModuleInfo` (the fields `module_by_address` fills). -/
structure ModuleInfo where
  address : Nat
  parent_process : Nat
  base : Nat
  size : Nat
  name : String
  path : String
  arch : ArchitectureIdent
  deriving DecidableEq, Repr

/-- Embedding of `memflow::os::ModuleAddressInfo`. -/
structure ModuleAddressInfo where
  address : Nat
  arch : ArchitectureIdent
  deriving DecidableEq, Repr

/-- The `PageType` value built by `mapped_mem_range`:
`PageType::empty().noexec(!perms.EXECUTE).write(perms.WRITE)`. -/
structure PageType where
  noexec : Bool
  write : Bool
  deriving DecidableEq, Repr

/-- One produced memory range `(base, size, page_type)`. -/
abbrev MemoryRange := Nat × Nat × PageType

/-- State of `LinuxProcess`: the procfs handle is reduced to its pid (the
raw I/O plumbing `virt_mem` is an external collaborator and not part of
the verified core); `info` and the two caches are carried verbatim. -/
structure LinuxProcess where
  procPid : Nat
  info : ProcessInfo
  cached_maps : List MemoryMap
  cached_module_maps : List MemoryMap
  deriving DecidableEq, Repr

/-- Embedding of `OsInfo` of memflow. -/
structure OsInfo where
  base : Nat
  size : Nat
  arch : ArchitectureIdent
  deriving DecidableEq, Repr

/-- Embedding of `KernelModule` of `windows/mod.rs` (an empty struct in the source). -/
structure KernelModule where
  deriving DecidableEq, Repr

/-- State of `WindowsOs`. -/
structure WindowsOs where
  info : OsInfo
  cached_processes : List ProcessInfo
  cached_modules : List KernelModule
  deriving DecidableEq, Repr

/-- Embedding of `WindowsOs::default()`. -/
def WindowsOs.default : WindowsOs :=
  { info := { base := 0, size := 0, arch := .X86 64 false }
    cached_processes := []
    cached_modules := [] }

/-- One raw `PROCESSENTRY32W` snapshot entry, reduced to the two fields
the source reads (`th32ProcessID` and the already-decoded `szExeFile`). -/
structure ProcessEntry where
  pid : Nat
  szExeFile : String
  deriving DecidableEq, Repr

/-! ## The callback feed

All three enumeration entry points drive a caller-supplied callback via
`Iterator::take_while` / `feed_into`: each pulled item is handed to the
callback (so the item on which the callback answers `false` is still
delivered), and the first `false` stops the iteration.  `deliver` is that
protocol for a stateful callback. -/

/-- Items delivered to callback `cb` started in state `s` when fed the
list `l`: delivery proceeds in order and stops right after the first
item on which `cb` answers `false`. -/
def deliver (cb : α → σ → Bool × σ) : σ → List α → List α
  | _, [] => []
  | s, x :: xs =>
    match cb x s with
    | (true, s2) => x :: deliver cb s2 xs
    | (false, _) => [x]

/-! ## The coalescer

`itertools::Itertools::coalesce`: a single left-to-right scan keeping one
accumulator; the closure either merges the accumulator with the next
element (`Ok`) or emits the accumulator and restarts from the next
(`Err`). -/

/-- Inner loop of `coalesce`, carrying the current accumulator. -/
def coalesceGo (f : α → α → Except (α × α) α) (acc : α) : List α → List α
  | [] => [acc]
  | y :: ys =>
    match f acc y with
    | .ok merged => coalesceGo f merged ys
    | .error (a, b) => a :: coalesceGo f b ys

/-- The `itertools` `coalesce` pass over a whole list. -/
def coalesce (f : α → α → Except (α × α) α) : List α → List α
  | [] => []
  | x :: xs => coalesceGo f x xs

/-! ## LinuxProcess operations (`src/linux/process.rs`) -/

/-- Split a character list at every occurrence of `sep` (the structural
core of path splitting; the result is never empty). -/
def splitOnChar (sep : Char) : List Char → List (List Char)
  | [] => [[]]
  | c :: cs =>
    match splitOnChar sep cs with
    | [] => [[]]
    | h :: t => if c = sep then [] :: h :: t else (c :: h) :: t

/-- Embedding of `LinuxProcess::mmap_path_to_name_string`.  For a real file path the
source takes `buf.file_name()` (the final path component) and falls back
to `"unknown"` when it is absent. -/
def mmap_path_to_name_string : MMapPath → String
  | .Path buf =>
    match (splitOnChar '/' buf.data).getLast? with
    | some s => if s = [] then "unknown" else String.mk s
    | none => "unknown"
  | .Heap => "[heap]"
  | .Stack => "[stack]"
  | .TStack _ => "[tstack]"
  | .Vdso => "[vdso]"
  | .Vvar => "[vvar]"
  | .Vsyscall => "[vsyscall]"
  | .Rollup => "[rollup]"
  | .Anonymous => "[anonymous]"
  | .Vsys _ => "[vsys]"
  | .Other s => s

/-- Embedding of `LinuxProcess::mmap_path_to_path_string`. -/
def mmap_path_to_path_string : MMapPath → String
  | .Path buf => buf
  | .Heap => "[heap]"
  | .Stack => "[stack]"
  | .TStack _ => "[tstack]"
  | .Vdso => "[vdso]"
  | .Vvar => "[vvar]"
  | .Vsyscall => "[vsyscall]"
  | .Rollup => "[rollup]"
  | .Anonymous => "[anonymous]"
  | .Vsys _ => "[vsys]"
  | .Other s => s

/-- The test `matches!(map.pathname, MMapPath::Path(_))`: the mapping is backed by
a real file. -/
def isPathMap (m : MemoryMap) : Bool :=
  match m.pathname with
  | .Path _ => true
  | _ => false

/-- The merged record the module-coalescing closure builds on `Ok`:
address span `(m1.address.0, m2.address.1)`, permissions `NONE`, offset,
device, inode and pathname from the left operand. -/
def moduleMerge (m1 m2 : MemoryMap) : MemoryMap :=
  { addrStart := m1.addrStart
    addrEnd := m2.addrEnd
    perms := MMPermissions.none
    offset := m1.offset
    dev := m1.dev
    inode := m1.inode
    pathname := m1.pathname }

/-- The module-coalescing closure of `module_address_list_callback`: merge
iff the left record ends where the right one starts and both share device
and inode (the file-offset check is commented out in the source). -/
def modulePred (m1 m2 : MemoryMap) : Except (MemoryMap × MemoryMap) MemoryMap :=
  if m1.addrEnd = m2.addrStart ∧ m1.dev = m2.dev ∧ m1.inode = m2.inode then
    .ok (moduleMerge m1 m2)
  else
    .error (m1, m2)

/-- The coalesced module map list computed from a fresh `maps()` result:
keep only file-backed mappings, then coalesce with `modulePred`. -/
def moduleMapsOf (maps : List MemoryMap) : List MemoryMap :=
  coalesce modulePred (maps.filter isPathMap)

/-- Embedding of `LinuxProcess::module_address_list_callback`.  The procfs `maps()`
query is passed in as an `Except` (its failure is mapped to
`UnableToReadDir`); the result pairs the items delivered to the callback
with the caller-visible outcome (error, or the updated state).  The
architecture gate `target_arch.is_none() || Some(&self.info().sys_arch) ==
target_arch` does not depend on the item, and each delivered item carries
the synthetic index as address and `info.proc_arch` as architecture. -/
def module_address_list_callback (st : LinuxProcess)
    (mapsResult : Except Unit (List MemoryMap))
    (targetArch : Option ArchitectureIdent)
    (cb : ModuleAddressInfo → σ → Bool × σ) (s : σ) :
    List ModuleAddressInfo × Except Error LinuxProcess :=
  match mapsResult with
  | .error _ => ([], .error ⟨.OsLayer, .UnableToReadDir⟩)
  | .ok maps =>
    let modMaps := moduleMapsOf maps
    let st2 := { st with cached_maps := maps, cached_module_maps := modMaps }
    let items :=
      ((List.range modMaps.length).filter fun _ =>
          targetArch.isNone || targetArch == some st.info.sys_arch).map
        fun i => ModuleAddressInfo.mk i st.info.proc_arch
    (deliver cb s items, .ok st2)

/-- Embedding of `LinuxProcess::module_by_address`: `NotFound` unless the requested
architecture equals `info.sys_arch`; then index the cached (most recently
computed) coalesced module list by the synthetic address. -/
def module_by_address (st : LinuxProcess) (address : Nat)
    (architecture : ArchitectureIdent) : Except Error ModuleInfo :=
  if architecture ≠ st.info.sys_arch then
    .error ⟨.OsLayer, .NotFound⟩
  else
    match st.cached_module_maps.get? address with
    | some map =>
      .ok { address := address
            parent_process := st.info.address
            base := map.addrStart
            size := map.size
            name := mmap_path_to_name_string map.pathname
            path := mmap_path_to_path_string map.pathname
            arch := st.info.sys_arch }
    | none => .error ⟨.OsLayer, .NotFound⟩

/-- Embedding of `LinuxProcess::clone`: a fresh procfs handle is opened for the same
pid (`Process::new(self.proc.pid()).unwrap()`), and `info` and both
caches are deep-copied (`.clone()` on owned data). -/
def LinuxProcess.clone (st : LinuxProcess) : LinuxProcess :=
  { procPid := st.procPid
    info := st.info
    cached_maps := st.cached_maps
    cached_module_maps := st.cached_module_maps }

/-! ### `mapped_mem_range` pipeline -/

/-- First clipping stage: `if s < start { (start, sz - (start - s), p) }`.
On every mapping that passed the overlap filter the subtraction cannot
underflow (`addrEnd > start` gives `sz > start - s`), so plain `Nat`
subtraction is exact here. -/
def clipLow (start : Nat) (r : MemoryRange) : MemoryRange :=
  if r.1 < start then (start, r.2.1 - (start - r.1), r.2.2) else r

/-- Second clipping stage, exactly as written in the source:
`if s + sz > end { let diff = s - end; (s, sz - diff as umem, p) }`.
`s - end` is `imem` subtraction whose result is cast to `umem`
(two's complement), and `sz - diff` is wrapping 64-bit subtraction. -/
def clipHigh (end_ : Nat) (r : MemoryRange) : MemoryRange :=
  if r.1 + r.2.1 > end_ then (r.1, wrapSub r.2.1 (wrapSub r.1 end_), r.2.2) else r

/-- The merged range the range-coalescing closure builds on `Ok`:
`(a.0, (b.0 - a.0) as umem + b.1, a.2)` with 64-bit wrapping. -/
def rangeMerge (a b : MemoryRange) : MemoryRange :=
  (a.1, (wrapSub b.1 a.1 + b.2.1) % U64MOD, a.2.2)

/-- The range-coalescing closure of `mapped_mem_range`: merge iff the gap
tolerance is non-negative, `a.0 + a.1 + gap_size as umem >= b.0`, and the
page types are equal. -/
def rangePred (gap_size : Int) (a b : MemoryRange) :
    Except (MemoryRange × MemoryRange) MemoryRange :=
  if 0 ≤ gap_size ∧ a.1 + a.2.1 + gap_size.toNat ≥ b.1 ∧ a.2.2 = b.2.2 then
    .ok (rangeMerge a b)
  else
    .error (a, b)

/-- The pure range pipeline of `mapped_mem_range` on an already-fetched
map list: overlap filter, readable filter, normalization to
`(base, size, page_type)`, the two clipping stages, then coalescing. -/
def mappedRangesOf (maps : List MemoryMap) (gap_size : Int)
    (start end_ : Nat) : List MemoryRange :=
  coalesce (rangePred gap_size)
    ((((maps.filter fun m => start < m.addrEnd && m.addrStart < end_).filter
        fun m => m.perms.read).map
      fun m => (m.addrStart, m.size,
        PageType.mk (!m.perms.exec) m.perms.write)).map
          (clipLow start) |>.map (clipHigh end_))

/-- Embedding of `LinuxProcess::mapped_mem_range`.  The trait method returns `()`:
there is no error channel, so the caller-visible outcome is always `ok`.
A failing `maps()` query is silently discarded by the source's
`if let Ok(maps) = …` and yields no items and no state change. -/
def mapped_mem_range (st : LinuxProcess)
    (mapsResult : Except Unit (List MemoryMap)) (gap_size : Int)
    (start end_ : Nat) (out : MemoryRange → σ → Bool × σ) (s : σ) :
    List MemoryRange × Except Error LinuxProcess :=
  match mapsResult with
  | .error _ => ([], .ok st)
  | .ok maps =>
    (deliver out s (mappedRangesOf maps gap_size start end_),
     .ok { st with cached_maps := maps })

/-! ## WindowsOs operations (`src/windows/mod.rs`) -/

/-- The set of `elevate_token` values for which `WindowsOs::new` skips
`enable_debug_privilege`, exactly as matched in the source:
`Some("off") | Some("OFF") | Some("Off") | Some("n") | Some("N") |
Some("0")`. -/
def elevateTokenOff : Option String → Bool
  | some "off" | some "OFF" | some "Off" | some "n" | some "N" | some "0" => true
  | _ => false

/-- Embedding of `WindowsOs::new`.  Here `elevateToken` is `args.extra_args.get("elevate_token")`
and `elevResult` the outcome of `enable_debug_privilege()` were it run; the
returned flag records whether elevation was invoked.  When elevation is
invoked its failure propagates (`?`) and construction fails. -/
def WindowsOs.new (elevateToken : Option String)
    (elevResult : Except Error Unit) : Except Error (WindowsOs × Bool) :=
  if elevateTokenOff elevateToken then
    .ok (WindowsOs.default, false)
  else
    match elevResult with
    | .ok _ => .ok (WindowsOs.default, true)
    | .error e => .error e

/-- Embedding of `WindowsOs::clone`: `info` is deep-copied, both caches restart empty. -/
def WindowsOs.clone (st : WindowsOs) : WindowsOs :=
  { info := st.info
    cached_processes := []
    cached_modules := [] }

/-- The `ProcessInfo` pushed into `cached_processes` for one snapshot
entry: address and pid both from `th32ProcessID`, state `Alive`, name the
final component of the executable path after the last backslash, both
architectures the OS architecture, and invalid dtbs. -/
def entryToInfo (st : WindowsOs) (e : ProcessEntry) : ProcessInfo :=
  { address := e.pid
    pid := e.pid
    state := .Alive
    name :=
      match (splitOnChar '\\' e.szExeFile.data).getLast? with
      | some s => String.mk s
      | none => e.szExeFile
    path := e.szExeFile
    command_line := ""
    sys_arch := st.info.arch
    proc_arch := st.info.arch
    dtb1 := INVALID
    dtb2 := INVALID }

/-- Embedding of `WindowsOs::process_address_list_callback`.  The toolhelp snapshot is
passed in as an `Except` (its failure is mapped by `conv_err` to
`Error(OsLayer, Unknown)` and propagated by `?`).  Each entry pulled
through the pipeline is first pushed onto `cached_processes` — which is
appended to, never cleared — and then its address is fed to the callback,
stopping at the first `false`. -/
def process_address_list_callback (st : WindowsOs)
    (snapshot : Except Unit (List ProcessEntry))
    (cb : Nat → σ → Bool × σ) (s : σ) :
    List Nat × Except Error WindowsOs :=
  match snapshot with
  | .error _ => ([], .error ⟨.OsLayer, .Unknown⟩)
  | .ok entries =>
    let pulled := deliver (fun e t => cb e.pid t) s entries
    (pulled.map (·.pid),
     .ok { st with
            cached_processes := st.cached_processes ++ pulled.map (entryToInfo st) })

/-- Embedding of `WindowsOs::process_info_by_address`: linear scan of the accumulated
`cached_processes` for the first entry with the given address. -/
def process_info_by_address (st : WindowsOs) (address : Nat) :
    Except Error ProcessInfo :=
  match st.cached_processes.find? (fun p => p.address == address) with
  | some p => .ok p
  | none => .error ⟨.OsLayer, .NotFound⟩

/-- Caller-visible outcome of a call that may panic instead of
returning. -/
inductive Outcome (α : Type) where
  | panics (msg : String)
  | returns (r : Except Error α)

/-- Embedding of `WindowsOs::module_by_address`: the body is `todo!()` (the would-be
implementation is commented out), so every call panics with the `todo!`
message rather than returning. -/
def winModule_by_address (st : WindowsOs) (address : Nat) :
    Outcome ModuleInfo :=
  .panics "not yet implemented"

/-- Embedding of `WindowsOs::module_import_list_callback`: unconditionally
`Err(Error(OsLayer, NotImplemented))`. -/
def winModule_import_list_callback (st : WindowsOs) (info : ModuleInfo) :
    Except Error Unit :=
  .error ⟨.OsLayer, .NotImplemented⟩

/-- Embedding of `WindowsOs::module_export_list_callback`: unconditionally
`Err(Error(OsLayer, NotImplemented))`. -/
def winModule_export_list_callback (st : WindowsOs) (info : ModuleInfo) :
    Except Error Unit :=
  .error ⟨.OsLayer, .NotImplemented⟩

/-- Embedding of `WindowsOs::module_section_list_callback`: unconditionally
`Err(Error(OsLayer, NotImplemented))`. -/
def winModule_section_list_callback (st : WindowsOs) (info : ModuleInfo) :
    Except Error Unit :=
  .error ⟨.OsLayer, .NotImplemented⟩

/-! ## Sample inputs and helper lemmas -/

/-- A callback that always answers `true` (never stops) and keeps no
state. -/
def cbTrue : α → Unit → Bool × Unit := fun _ s => (true, s)

/-- A sample resolved process identity. -/
def infoSample : ProcessInfo :=
  { address := 1000, pid := 7, state := .Unknown, name := "app"
    path := "/usr/bin/app", command_line := ""
    sys_arch := .X86 64 false, proc_arch := .X86 64 false
    dtb1 := 0, dtb2 := 0 }

/-- A sample Linux process handle with empty caches. -/
def procSample : LinuxProcess :=
  { procPid := 7, info := infoSample, cached_maps := [], cached_module_maps := [] }

/-- A readable anonymous mapping spanning `[100, 300)`. -/
def mapRegion : MemoryMap :=
  { addrStart := 100, addrEnd := 300, perms := ⟨true, false, false⟩
    offset := 0, dev := (8, 1), inode := 0, pathname := .Anonymous }

/-- First half of a file-backed module: `[0, 100)` of `/lib/x.so`. -/
def mapFileA : MemoryMap :=
  { addrStart := 0, addrEnd := 100, perms := ⟨true, false, true⟩
    offset := 0, dev := (8, 1), inode := 42, pathname := .Path "/lib/x.so" }

/-- Second half of the same module: `[100, 200)` at a different file
offset. -/
def mapFileB : MemoryMap :=
  { addrStart := 100, addrEnd := 200, perms := ⟨true, false, false⟩
    offset := 4096, dev := (8, 1), inode := 42, pathname := .Path "/lib/x.so" }

/-- A sample toolhelp snapshot entry. -/
def entrySample : ProcessEntry := ⟨10, "C:\\Windows\\x.exe"⟩

/-- Extract the updated state from an enumeration outcome (the sample
chains below only ever take the `ok` branch). -/
def okStateW (r : List Nat × Except Error WindowsOs) : WindowsOs :=
  match r.2 with
  | .ok st => st
  | .error _ => WindowsOs.default

/-- State after a first process enumeration whose snapshot lists only
`entrySample`. -/
def winSt1 : WindowsOs :=
  okStateW (process_address_list_callback WindowsOs.default (.ok [entrySample]) cbTrue ())

/-- State after a second (most recent) process enumeration whose snapshot
is empty — the process has exited. -/
def winSt2 : WindowsOs :=
  okStateW (process_address_list_callback winSt1 (.ok []) cbTrue ())

lemma coalesce_pair_ok {f : α → α → Except (α × α) α} {a b m : α}
    (h : f a b = .ok m) : coalesce f [a, b] = [m] := by
  simp [coalesce, coalesceGo, h]

lemma coalesce_pair_err {f : α → α → Except (α × α) α} {a b x y : α}
    (h : f a b = .error (x, y)) : coalesce f [a, b] = [x, y] := by
  simp [coalesce, coalesceGo, h]

lemma deliver_isPrefixOf (cb : α → σ → Bool × σ) (s : σ) (l : List α) :
    deliver cb s l <+: l := by
  induction l generalizing s with
  | nil => simp [deliver]
  | cons x xs ih =>
    simp only [deliver]
    rcases h : cb x s with ⟨b, s2⟩
    cases b
    · exact ⟨xs, rfl⟩
    · exact (List.cons_prefix_cons).2 ⟨rfl, ih s2⟩

lemma deliver_all (cb : α → σ → Bool × σ) (s : σ) (l : List α)
    (h : ∀ x t, (cb x t).1 = true) : deliver cb s l = l := by
  induction l generalizing s with
  | nil => rfl
  | cons x xs ih =>
    simp only [deliver]
    rcases hx : cb x s with ⟨b, s2⟩
    have := h x s
    rw [hx] at this
    subst this
    simp [ih s2]

lemma deliver_stop (cb : α → σ → Bool × σ) (s : σ) (x : α) (l : List α)
    (h : (cb x s).1 = false) : deliver cb s (x :: l) = [x] := by
  simp only [deliver]
  rcases hx : cb x s with ⟨b, s2⟩
  rw [hx] at h
  subst h
  rfl

/-! ## Claims -/

/-- C1: the claim says that `mapped_mem_range` clips an over-hanging
region so that its produced end equals the window's end, and in
particular that region `[100, 300)` queried through window `[150, 250)`
yields base `150` and size `100`.  The code's upper clip computes
`let diff = s - end` (instead of `s + sz - end`), so with 64-bit wrapping
it emits base `150` with size `250` — the produced end is `400`, far past
the window end `250`.  This contradicts the guard `s + sz > end` right
above it: the claim describes the evident intent and the code is a slip
(in a debug build the subtraction `sz - diff as umem` even panics on
underflow). -/
theorem C1_clipper_bug :
    (mapped_mem_range procSample (.ok [mapRegion]) (-1) 150 250 cbTrue ()).1 =
      [(150, 250, ⟨true, false⟩)] := by
  decide

/-- C2: two adjacent file-backed raw mappings are merged by the module
coalescer into one record iff the first's end equals the second's start
and device and inode agree (file offset ignored — `mapFileA`/`mapFileB`
in the witness differ in offset); the merged record's size is the sum of
the two sizes; and non-file-backed mappings are dropped before coalescing
begins, wherever they occur in the input. -/
theorem C2_module_coalescing (m1 m2 : MemoryMap)
    (h1 : isPathMap m1 = true) (h2 : isPathMap m2 = true)
    (hw1 : m1.addrStart ≤ m1.addrEnd) (hw2 : m2.addrStart ≤ m2.addrEnd) :
    (moduleMapsOf [m1, m2] = [moduleMerge m1 m2] ↔
      (m1.addrEnd = m2.addrStart ∧ m1.dev = m2.dev ∧ m1.inode = m2.inode))
    ∧ (¬(m1.addrEnd = m2.addrStart ∧ m1.dev = m2.dev ∧ m1.inode = m2.inode) →
        moduleMapsOf [m1, m2] = [m1, m2])
    ∧ (m1.addrEnd = m2.addrStart →
        (moduleMerge m1 m2).size = m1.size + m2.size)
    ∧ (∀ (n : MemoryMap) (l : List MemoryMap), isPathMap n = false →
        moduleMapsOf (n :: l) = moduleMapsOf l
        ∧ moduleMapsOf (l ++ [n]) = moduleMapsOf l) := by
  have hfilter : [m1, m2].filter isPathMap = [m1, m2] := by
    simp [List.filter, h1, h2]
  by_cases hc : m1.addrEnd = m2.addrStart ∧ m1.dev = m2.dev ∧ m1.inode = m2.inode
  · refine ⟨⟨fun _ => hc, fun _ => ?_⟩, fun hn => absurd hc hn, fun he => ?_, ?_⟩
    · rw [moduleMapsOf, hfilter]
      exact coalesce_pair_ok (by simp [modulePred, hc])
    · simp only [moduleMerge, MemoryMap.size]
      omega
    · intro n l hn
      constructor
      · simp [moduleMapsOf, List.filter_cons, hn]
      · simp [moduleMapsOf, List.filter_append, List.filter_cons, hn]
  · have hres : moduleMapsOf [m1, m2] = [m1, m2] := by
      rw [moduleMapsOf, hfilter]
      exact coalesce_pair_err (by simp [modulePred, hc])
    refine ⟨⟨fun he => ?_, fun h => absurd h hc⟩, fun _ => hres, fun he => ?_, ?_⟩
    · rw [hres] at he
      simp at he
    · simp only [moduleMerge, MemoryMap.size]
      omega
    · intro n l hn
      constructor
      · simp [moduleMapsOf, List.filter_cons, hn]
      · simp [moduleMapsOf, List.filter_append, List.filter_cons, hn]

/-- Witness for C2: the two halves of `/lib/x.so`, contiguous at `100`,
same device `(8, 1)` and inode `42`, different file offsets, merge into a
single record of size `200 = 100 + 100`. -/
theorem C2_module_coalescing_witness :
    moduleMapsOf [mapFileA, mapFileB] = [moduleMerge mapFileA mapFileB]
    ∧ (moduleMerge mapFileA mapFileB).size = mapFileA.size + mapFileB.size := by
  have h := C2_module_coalescing mapFileA mapFileB (by decide) (by decide)
    (by decide) (by decide)
  exact ⟨h.1.mpr (by decide), h.2.2.1 (by decide)⟩

/-- C3: in `mapped_mem_range`'s coalescing stage, two adjacent
permission-normalized ranges merge into one iff the gap tolerance is
non-negative, `a.end + gap ≥ b.start`, and the page-type flags coincide;
a negative tolerance never merges, and an over-large gap leaves the two
ranges separate in address order. -/
theorem C3_range_coalescing (g : Int) (a b : MemoryRange) :
    (coalesce (rangePred g) [a, b] = [rangeMerge a b] ↔
      (0 ≤ g ∧ b.1 ≤ a.1 + a.2.1 + g.toNat ∧ a.2.2 = b.2.2))
    ∧ (g < 0 → coalesce (rangePred g) [a, b] = [a, b])
    ∧ (¬(0 ≤ g ∧ b.1 ≤ a.1 + a.2.1 + g.toNat ∧ a.2.2 = b.2.2) →
        coalesce (rangePred g) [a, b] = [a, b]) := by
  by_cases hc : 0 ≤ g ∧ b.1 ≤ a.1 + a.2.1 + g.toNat ∧ a.2.2 = b.2.2
  · refine ⟨⟨fun _ => hc, fun _ => ?_⟩, fun hg => absurd hc (by omega), fun hn => absurd hc hn⟩
    exact coalesce_pair_ok (by simp [rangePred, hc.1, hc.2.1, hc.2.2])
  · have hres : coalesce (rangePred g) [a, b] = [a, b] :=
      coalesce_pair_err (by simp only [rangePred, if_neg hc])
    refine ⟨⟨fun he => ?_, fun h => absurd h hc⟩, fun _ => hres, fun _ => hres⟩
    rw [hres] at he
    simp at he

/-- Witness for C3: ranges `[0, 100)` and `[105, 155)` with identical
flags and gap `5 ≤ 10` merge into `[0, 155)`; the same pair with a
negative tolerance stays separate. -/
theorem C3_range_coalescing_witness :
    coalesce (rangePred 10) [(0, 100, ⟨true, false⟩), (105, 50, ⟨true, false⟩)] =
      [(0, 155, ⟨true, false⟩)]
    ∧ coalesce (rangePred (-1)) [(0, 100, ⟨true, false⟩), (105, 50, ⟨true, false⟩)] =
      [(0, 100, ⟨true, false⟩), (105, 50, ⟨true, false⟩)] := by
  constructor
  · have h := (C3_range_coalescing 10 (0, 100, ⟨true, false⟩)
      (105, 50, ⟨true, false⟩)).1.mpr (by decide)
    rw [h]
    decide
  · exact (C3_range_coalescing (-1) (0, 100, ⟨true, false⟩)
      (105, 50, ⟨true, false⟩)).2.1 (by decide)

/-- C4 counterexample: the claim says every enumeration entry point —
including the mapped-range list — surfaces an OS-query failure as a typed
error and never yields zero items with success.  But `mapped_mem_range`'s
trait signature returns `()`, and the body discards the failing `maps()`
result with `if let Ok(maps) = …`: on a failing query the call completes
successfully with zero items delivered and no error surfaced. -/
theorem C4_counterexample :
    mapped_mem_range procSample (.error ()) (-1) 0 1000 cbTrue () =
      ([], .ok procSample) := rfl

/-- C4 (amended): the process-list and module-list enumerations surface
an OS-query failure before any items are produced as a typed error with
zero items (`UnableToReadDir` for the Linux module list, `Unknown` — via
`conv_err` — for the Windows process list); the mapped-range enumeration
has no error channel and silently completes with zero items on OS-query
failure. -/
theorem C4_enumeration_failure (st : LinuxProcess) (stW : WindowsOs)
    (targetArch : Option ArchitectureIdent) (g : Int) (a b : Nat)
    (σ₁ σ₂ σ₃ : Type)
    (cb₁ : ModuleAddressInfo → σ₁ → Bool × σ₁) (s₁ : σ₁)
    (cb₂ : Nat → σ₂ → Bool × σ₂) (s₂ : σ₂)
    (cb₃ : MemoryRange → σ₃ → Bool × σ₃) (s₃ : σ₃) :
    module_address_list_callback st (.error ()) targetArch cb₁ s₁ =
      ([], .error ⟨.OsLayer, .UnableToReadDir⟩)
    ∧ process_address_list_callback stW (.error ()) cb₂ s₂ =
      ([], .error ⟨.OsLayer, .Unknown⟩)
    ∧ mapped_mem_range st (.error ()) g a b cb₃ s₃ = ([], .ok st) :=
  ⟨rfl, rfl, rfl⟩

/-- C5 counterexample: the claim says `process_info_by_address` answers
only from the most recent enumeration's cache, so an address absent from
that enumeration (the process exited before it ran) yields `NotFound`.
But `cached_processes` is appended to and never cleared: after a first
enumeration that saw pid `10` and a second, most recent, enumeration that
saw nothing, the lookup still returns the stale record instead of
`NotFound`. -/
theorem C5_counterexample :
    process_info_by_address winSt2 10 =
      .ok (entryToInfo WindowsOs.default entrySample)
    ∧ process_info_by_address winSt2 10 ≠ .error ⟨.OsLayer, .NotFound⟩ := by
  constructor
  · rfl
  · intro h
    rw [show process_info_by_address winSt2 10 =
      .ok (entryToInfo WindowsOs.default entrySample) from rfl] at h
    exact Except.noConfusion h

/-- C5 (amended): `process_info_by_address` answers from the accumulated
cache of every enumeration run so far — each enumeration appends the
entries it pulls to `cached_processes` and never clears it — returning
the first cached record with the requested address; it fails with
`NotFound` only when no enumeration has ever produced that address. -/
theorem C5_process_lookup (st : WindowsOs) (a : Nat) :
    (st.cached_processes.find? (fun p => p.address == a) = none →
      process_info_by_address st a = .error ⟨.OsLayer, .NotFound⟩)
    ∧ (∀ p, st.cached_processes.find? (fun p => p.address == a) = some p →
        process_info_by_address st a = .ok p)
    ∧ (∀ (entries : List ProcessEntry) (σ : Type) (cb : Nat → σ → Bool × σ) (s : σ),
        (process_address_list_callback st (.ok entries) cb s).2 =
          .ok { st with cached_processes := st.cached_processes ++
            (deliver (fun e t => cb e.pid t) s entries).map (entryToInfo st) }) := by
  refine ⟨fun h => ?_, fun p h => ?_, fun entries σ cb s => rfl⟩
  · simp [process_info_by_address, h]
  · simp [process_info_by_address, h]

/-- Witness for C5 (amended): on a fresh handle, whose accumulated cache
is empty, resolving address `5` fails with `NotFound`. -/
theorem C5_process_lookup_witness :
    process_info_by_address WindowsOs.default 5 = .error ⟨.OsLayer, .NotFound⟩ :=
  (C5_process_lookup WindowsOs.default 5).1 rfl

/-- C6: the callback feed shared by all three enumerations (`deliver`,
the embedding of `take_while`/`feed_into`) hands items over one per call
in discovery order — the delivered list is a prefix of the enumeration —
delivers nothing further once the callback answers `false`, and delivers
the complete enumeration to a callback that never stops; in particular
the Windows process list, the Linux module list and the mapped-range list
each deliver a prefix of their full item streams. -/
theorem C6_callback_feed (σ : Type) (cb : Nat → σ → Bool × σ) (s : σ)
    (l : List Nat) :
    (deliver cb s l <+: l)
    ∧ ((∀ x t, (cb x t).1 = true) → deliver cb s l = l)
    ∧ (∀ x, (cb x s).1 = false → deliver cb s (x :: l) = [x])
    ∧ (∀ (stW : WindowsOs) (entries : List ProcessEntry),
        (process_address_list_callback stW (.ok entries) cb s).1 <+:
          entries.map (·.pid))
    ∧ (∀ (st : LinuxProcess) (maps : List MemoryMap)
        (targetArch : Option ArchitectureIdent) (σ' : Type)
        (cb' : ModuleAddressInfo → σ' → Bool × σ') (s' : σ'),
        (module_address_list_callback st (.ok maps) targetArch cb' s').1 <+:
          ((List.range (moduleMapsOf maps).length).filter fun _ =>
              targetArch.isNone || targetArch == some st.info.sys_arch).map
            fun i => ModuleAddressInfo.mk i st.info.proc_arch)
    ∧ (∀ (st : LinuxProcess) (maps : List MemoryMap) (g : Int) (a b : Nat)
        (σ' : Type) (cb' : MemoryRange → σ' → Bool × σ') (s' : σ'),
        (mapped_mem_range st (.ok maps) g a b cb' s').1 <+:
          mappedRangesOf maps g a b) := by
  refine ⟨deliver_isPrefixOf cb s l, deliver_all cb s l,
    fun x => deliver_stop cb s x l,
    fun stW entries => ?_, fun st maps targetArch σ' cb' s' => ?_,
    fun st maps g a b σ' cb' s' => ?_⟩
  · exact (deliver_isPrefixOf (fun e t => cb e.pid t) s entries).map (·.pid)
  · exact deliver_isPrefixOf cb' s' _
  · exact deliver_isPrefixOf cb' s' _

/-- Witness for C6: a never-stopping callback receives the complete
enumeration `[0, 1, 2]`, and a callback that stops at once receives
exactly the first item. -/
theorem C6_callback_feed_witness :
    deliver cbTrue () [0, 1, 2] = [0, 1, 2]
    ∧ deliver (fun (_ : Nat) (s : Unit) => (false, s)) () [0, 1, 2] = [0] := by
  constructor
  · exact (C6_callback_feed Unit cbTrue () [0, 1, 2]).2.1 fun _ _ => rfl
  · exact (C6_callback_feed Unit (fun _ s => (false, s)) () [1, 2]).2.2.1 0 rfl

/-- C7: `module_by_address` fails with `NotFound` whenever the requested
architecture differs from the process's declared system architecture —
for every address, including `0` — and fails with `NotFound` whenever the
synthetic address indexes past the end of the most recently computed
coalesced module list (`cached_module_maps`); otherwise it returns the
module record built from the map at that index. -/
theorem C7_module_by_address (st : LinuxProcess) (address : Nat)
    (arch : ArchitectureIdent) :
    (arch ≠ st.info.sys_arch →
      module_by_address st address arch = .error ⟨.OsLayer, .NotFound⟩)
    ∧ (st.cached_module_maps.length ≤ address →
      module_by_address st address arch = .error ⟨.OsLayer, .NotFound⟩)
    ∧ (arch = st.info.sys_arch →
      ∀ map, st.cached_module_maps.get? address = some map →
        module_by_address st address arch =
          .ok { address := address
                parent_process := st.info.address
                base := map.addrStart
                size := map.size
                name := mmap_path_to_name_string map.pathname
                path := mmap_path_to_path_string map.pathname
                arch := st.info.sys_arch }) := by
  refine ⟨fun h => ?_, fun h => ?_, fun h map hm => ?_⟩
  · unfold module_by_address
    rw [if_pos h]
  · unfold module_by_address
    by_cases ha : arch = st.info.sys_arch
    · rw [if_neg (fun hne => hne ha), List.get?_eq_none.mpr h]
    · rw [if_pos ha]
  · unfold module_by_address
    rw [if_neg (fun hne => hne h), hm]

/-- Witness for C7: on a handle whose cached module list holds the single
coalesced `/lib/x.so` record, resolving address `0` with a mismatched
architecture fails with `NotFound`, resolving address `1` (out of range)
with the right architecture fails with `NotFound`, and resolving address
`0` with the system architecture returns the record for index `0`. -/
theorem C7_module_by_address_witness :
    module_by_address
        { procSample with cached_module_maps := [moduleMerge mapFileA mapFileB] }
        0 (.AArch64 4096) = .error ⟨.OsLayer, .NotFound⟩
    ∧ module_by_address
        { procSample with cached_module_maps := [moduleMerge mapFileA mapFileB] }
        1 (.X86 64 false) = .error ⟨.OsLayer, .NotFound⟩
    ∧ module_by_address
        { procSample with cached_module_maps := [moduleMerge mapFileA mapFileB] }
        0 (.X86 64 false) =
      .ok { address := 0, parent_process := 1000, base := 0, size := 200
            name := "x.so", path := "/lib/x.so", arch := .X86 64 false } := by
  refine ⟨(C7_module_by_address _ 0 (.AArch64 4096)).1 (by decide),
    (C7_module_by_address _ 1 (.X86 64 false)).2.1 (by decide), ?_⟩
  have h := (C7_module_by_address
      { procSample with cached_module_maps := [moduleMerge mapFileA mapFileB] }
      0 (.X86 64 false)).2.2 rfl (moduleMerge mapFileA mapFileB) rfl
  rw [h]
  congr 1

/-- C8 counterexample: the claim says every clone starts with empty
raw-mapping and module caches.  `LinuxProcess::clone` instead deep-copies
both caches (`self.cached_maps.clone()`, `self.cached_module_maps.clone()`):
cloning a handle whose raw-mapping cache holds one entry yields a clone
whose cache holds that same entry, not an empty one. -/
theorem C8_counterexample :
    (LinuxProcess.clone { procSample with cached_maps := [mapRegion] }).cached_maps
      = [mapRegion]
    ∧ (LinuxProcess.clone { procSample with cached_maps := [mapRegion] }).cached_maps
      ≠ [] := ⟨rfl, fun h => List.noConfusion h⟩

/-- C8 (amended): cloning never shares cache storage and deep-copies the
already-resolved process identity; the Windows OS handle's clone restarts
with empty process and module caches, while the Linux process clone —
which re-opens a procfs handle for the same pid — deep-copies its
raw-mapping and module-map caches as well. -/
theorem C8_clone (st : LinuxProcess) (w : WindowsOs) :
    ((LinuxProcess.clone st).procPid = st.procPid
      ∧ (LinuxProcess.clone st).info = st.info
      ∧ (LinuxProcess.clone st).cached_maps = st.cached_maps
      ∧ (LinuxProcess.clone st).cached_module_maps = st.cached_module_maps)
    ∧ ((WindowsOs.clone w).info = w.info
      ∧ (WindowsOs.clone w).cached_processes = []
      ∧ (WindowsOs.clone w).cached_modules = []) :=
  ⟨⟨rfl, rfl, rfl, rfl⟩, ⟨rfl, rfl, rfl⟩⟩

/-- C9 counterexample: the claim says every unsupported kernel-module
introspection capability — including OS-level module lookup by address —
returns a typed `NotImplemented` error.  `WindowsOs::module_by_address`
instead is `todo!()`: it panics, returning nothing at all. -/
theorem C9_counterexample :
    winModule_by_address WindowsOs.default 0 = .panics "not yet implemented"
    ∧ winModule_by_address WindowsOs.default 0 ≠
        .returns (.error ⟨.OsLayer, .NotImplemented⟩) :=
  ⟨rfl, fun h => Outcome.noConfusion h⟩

/-- C9 (amended): the unsupported module import-, export- and
section-listing capabilities each return the typed `NotImplemented` error
to the caller; the OS-level module lookup by address does not — it panics
with the `todo!` message instead of returning. -/
theorem C9_not_implemented (st : WindowsOs) (info : ModuleInfo) (address : Nat) :
    winModule_import_list_callback st info = .error ⟨.OsLayer, .NotImplemented⟩
    ∧ winModule_export_list_callback st info = .error ⟨.OsLayer, .NotImplemented⟩
    ∧ winModule_section_list_callback st info = .error ⟨.OsLayer, .NotImplemented⟩
    ∧ winModule_by_address st address = .panics "not yet implemented" :=
  ⟨rfl, rfl, rfl, rfl⟩

/-- C10 counterexample: the claim says the privilege-elevation step is
skipped iff the flag value matches an "off" token case-insensitively.
`"oFF"` is case-insensitively equal to the recognized token `"off"`, yet
the source's literal match (`"off" | "OFF" | "Off" | "n" | "N" | "0"`)
does not cover it: elevation is invoked, and its failure fails the
construction instead of being skipped. -/
theorem C10_counterexample :
    "oFF".data.map Char.toLower = "off".data.map Char.toLower
    ∧ elevateTokenOff (some "oFF") = false
    ∧ WindowsOs.new (some "oFF") (.error ⟨.OsLayer, .Unknown⟩) =
        .error ⟨.OsLayer, .Unknown⟩ :=
  ⟨by decide, rfl, rfl⟩

/-- C10 (amended): elevation is skipped iff the `elevate_token` value is
literally one of the six strings `off`, `OFF`, `Off`, `n`, `N`, `0` (a
fixed set of common casings, not a case-insensitive comparison); in every
other case — including an absent flag — elevation is invoked during
construction and its failure makes construction fail. -/
theorem C10_elevation (v : Option String) (res : Except Error Unit) :
    (elevateTokenOff v = true →
      WindowsOs.new v res = .ok (WindowsOs.default, false))
    ∧ (elevateTokenOff v = false →
      WindowsOs.new v res = res.map fun _ => (WindowsOs.default, true))
    ∧ (elevateTokenOff v = true ↔
      v ∈ [some "off", some "OFF", some "Off", some "n", some "N", some "0"]) := by
  refine ⟨fun h => ?_, fun h => ?_, ?_⟩
  · simp [WindowsOs.new, h]
  · cases res with
    | ok u => simp [WindowsOs.new, h, Except.map]
    | error e => simp [WindowsOs.new, h, Except.map]
  · constructor
    · intro h
      unfold elevateTokenOff at h
      split at h <;> simp_all
    · intro h
      simp only [List.mem_cons, List.not_mem_nil, or_false] at h
      rcases h with h | h | h | h | h | h <;> subst h <;> rfl

/-- Witness for C10 (amended): with the flag set to `"off"` elevation is
skipped even when it would fail, and with the flag absent a failing
elevation makes construction fail. -/
theorem C10_elevation_witness :
    WindowsOs.new (some "off") (.error ⟨.OsLayer, .Unknown⟩) =
      .ok (WindowsOs.default, false)
    ∧ WindowsOs.new none (.error ⟨.OsLayer, .Unknown⟩) =
      .error ⟨.OsLayer, .Unknown⟩ := by
  constructor
  · exact (C10_elevation (some "off") (.error ⟨.OsLayer, .Unknown⟩)).1 rfl
  · have h := (C10_elevation none (.error ⟨.OsLayer, .Unknown⟩)).2.1 rfl
    rw [h]
    rfl

end MemflowNative
